import Mathlib

/-!
Shallow embedding of the stock-monitor pipeline (src/stock_monitor.py).

The script fetches per-symbol market data, evaluates deviation rules
against a trailing window, deduplicates alerts within one calendar date
through a small JSON store, and pushes one aggregate message per run.
Numeric values are modelled as rationals (the Python floats idealised),
volumes as naturals, and the fallible provider calls as `Option`-valued
inputs to the pure normalisation code.
-/

/-- Configured intraday price-change threshold (module constant
`PRICE_CHANGE_THRESHOLD = 5.0`). -/
def PRICE_CHANGE_THRESHOLD : ℚ := 5

/-- Configured close-mode volume-spike multiplier (module constant
`VOLUME_MULTIPLIER = 1.8`). -/
def VOLUME_MULTIPLIER : ℚ := 9 / 5

/-- Round a rational to the nearest integer, ties to even: the rounding
used by Python `round` (on exact values; binary-float artefacts are
idealised away). -/
def roundHalfEven (q : ℚ) : ℤ :=
  let d : ℤ := q.den
  let f : ℤ := q.num.fdiv d
  let rem : ℤ := q.num - f * d
  if 2 * rem < d then f
  else if d < 2 * rem then f + 1
  else if f % 2 = 0 then f else f + 1

/-- Python `round(x, 2)`. -/
def round2 (q : ℚ) : ℚ := (roundHalfEven (q * 100) : ℚ) / 100

/-- Python `round(x, 3)`. -/
def round3 (q : ℚ) : ℚ := (roundHalfEven (q * 1000) : ℚ) / 1000

/-- Python `int(x)`: truncation toward zero. -/
def pyInt (q : ℚ) : ℤ := q.num.tdiv q.den

/-- Python truthiness of an optional number: `None` and `0` are falsy. -/
def falsy : Option ℚ → Bool
  | none => true
  | some x => x == 0

/-- One normalised intraday quote record, as built by the `_fetch`
closures of `get_intraday_us` / `get_intraday_hk` / `get_intraday_a`. -/
structure IntradayRecord where
  symbol : String
  name : String
  price : ℚ
  prev_close : ℚ
  change_pct : ℚ
  vol_ratio : Option ℚ
  market : String
deriving Repr, DecidableEq

/-- Intraday volume ratio (src/stock_monitor.py line 189):
`round(vol / avg_vol, 2) if vol and avg_vol else None`. -/
def volRatioIntraday (vol avg_vol : Option ℚ) : Option ℚ :=
  if falsy vol || falsy avg_vol then none
  else
    match vol, avg_vol with
    | some v, some a => some (round2 (v / a))
    | _, _ => none

/-- The intraday record literal (src/stock_monitor.py lines 190-198). -/
def mkIntradayRecord (symbol : String) (c p : ℚ) (vol avg_vol : Option ℚ) :
    IntradayRecord :=
  { symbol := symbol, name := symbol, price := round3 c, prev_close := round3 p,
    change_pct := round2 ((c - p) / p * 100),
    vol_ratio := volRatioIntraday vol avg_vol, market := "美股" }

/-- The pure normalisation step of the intraday `_fetch` closure
(src/stock_monitor.py lines 179-201).  The provider values
(`fast_info.last_price`, `previous_close`, `last_volume`,
`three_month_average_volume`) arrive as optional rationals; the
exception path of the closure is the `none` result. -/
def fetchIntraday (symbol : String) (current prev_close vol avg_vol : Option ℚ) :
    Option IntradayRecord :=
  if falsy current || falsy prev_close || prev_close == some 0 then none
  else
    match current, prev_close with
    | some c, some p => some (mkIntradayRecord symbol c p vol avg_vol)
    | _, _ => none

/-- The price-move trigger condition used by `run_intraday`
(line 409): absolute change percentage at or above the threshold. -/
def priceMoveFires (th : ℚ) (s : IntradayRecord) : Bool :=
  decide (th ≤ |s.change_pct|)

/-- Direction marker of an intraday alert line (line 421). -/
def intradayEmoji (s : IntradayRecord) : String :=
  if 0 < s.change_pct then "📈" else "📉"

/-- Python `f"{x:+.2f}"` on a rational (value first rounded to
hundredths), used for the change-percentage cell of the alert line. -/
def fmtPlus2 (x : ℚ) : String :=
  let bp : ℤ := roundHalfEven (x * 100)
  let sign : String := if bp < 0 then "-" else "+"
  let n : ℕ := bp.natAbs
  let fp : ℕ := n % 100
  let fpStr : String := if fp < 10 then "0" ++ toString fp else toString fp
  sign ++ toString (n / 100) ++ "." ++ fpStr

/-- One past session bar of the trailing history (a row of the
`yf.Ticker(...).history` frame restricted to the columns the script
reads). -/
structure Bar where
  close : ℚ
  volume : ℕ
deriving Repr, DecidableEq

/-- One normalised close-mode record, as built by the `_fetch` closures
of `get_close_data_us` / `get_close_data_hk` / `get_close_data_a`. -/
structure CloseRecord where
  symbol : String
  name : String
  price : ℚ
  volume : ℕ
  avg_vol_30 : ℤ
  vol_ratio : ℚ
  max_30d : ℚ
  min_30d : ℚ
  market : String
deriving Repr, DecidableEq

/-- The pandas slice `hist.iloc[-31:-1]`: the up-to-30 bars preceding
the last one. -/
def hist30 (hist : List Bar) : List Bar :=
  (hist.take (hist.length - 1)).drop (hist.length - 31)

/-- `hist_30["Volume"].mean()`. -/
def meanVol (l : List Bar) : ℚ :=
  ((l.map (fun b => (b.volume : ℚ))).sum) / (l.length : ℚ)

/-- Pandas `max()` over a nonempty column (the `[]` case is never
reached by the callers). -/
def listMax : List ℚ → ℚ
  | [] => 0
  | [x] => x
  | x :: y :: t => max x (listMax (y :: t))

/-- Pandas `min()` over a nonempty column. -/
def listMin : List ℚ → ℚ
  | [] => 0
  | [x] => x
  | x :: y :: t => min x (listMin (y :: t))

/-- The record assembly of the close-mode `_fetch` closure: `last` is
the final bar of the history, `h30` the trailing window slice
(src/stock_monitor.py lines 460-477). -/
def mkCloseRecord (symbol market : String) (last : Bar) (h30 : List Bar) : CloseRecord :=
  let avg : ℚ := meanVol h30
  let vr : ℚ := if 0 < avg then (last.volume : ℚ) / avg else 0
  { symbol := symbol, name := symbol, price := round3 last.close,
    volume := last.volume, avg_vol_30 := pyInt avg, vol_ratio := round2 vr,
    max_30d := round3 (listMax (h30.map Bar.close)),
    min_30d := round3 (listMin (h30.map Bar.close)), market := market }

/-- The pure part of the close-mode `_fetch` closure
(src/stock_monitor.py lines 455-480): histories with fewer than 5 bars
are discarded, otherwise the record is built from the last bar and the
`hist.iloc[-31:-1]` window.  The exception path is the `none` result. -/
def fetchClose (symbol market : String) (hist : List Bar) : Option CloseRecord :=
  if hist.length < 5 then none
  else
    match hist.getLast? with
    | none => none
    | some last => some (mkCloseRecord symbol market last (hist30 hist))

/-- The triggered-condition kinds appended by `check_close_alerts`:
condition 2 as a 30-day high or low, condition 3 as a volume spike. -/
inductive CloseCondition
  | newHigh
  | newLow
  | volumeSpike
deriving Repr, DecidableEq

/-- `check_close_alerts` (src/stock_monitor.py lines 572-587): the
new-extreme `if/elif` followed by the independent volume check; the
message strings are abstracted to their condition kinds, in the order
the code appends them. -/
def checkCloseAlerts (stock : CloseRecord) : List CloseCondition :=
  (if stock.max_30d ≤ stock.price then [CloseCondition.newHigh]
   else if stock.price ≤ stock.min_30d then [CloseCondition.newLow]
   else [])
  ++ (if VOLUME_MULTIPLIER ≤ stock.vol_ratio then [CloseCondition.volumeSpike] else [])

/-- The parsed content of `alerted_today.json`.  Both keys are read with
`dict.get`, hence optional. -/
structure SavedDedup where
  date : Option String
  symbols : Option (List String)
deriving Repr, DecidableEq

/-- `load_alerted_today` (src/stock_monitor.py lines 61-71): `content`
is `none` when the file is missing, unreadable or malformed (the
`except` path); the stored set is returned only when the stored date
equals today.  The Python `set` is modelled as a list queried only by
membership. -/
def loadAlertedToday (content : Option SavedDedup) (today : String) : List String :=
  match content with
  | none => []
  | some d => if d.date = some today then d.symbols.getD [] else []

/-- `save_alerted_today` (src/stock_monitor.py lines 74-83): reload the
current set, union in the new symbols, and write today plus the merged
set back (`List.union` standing for the set union, iteration order of
the Python set being arbitrary anyway). -/
def saveAlertedToday (content : Option SavedDedup) (newSymbols : List String)
    (today : String) : SavedDedup :=
  { date := some today,
    symbols := some ((loadAlertedToday content today).union newSymbols) }

/-- Sort order of the intraday summary (src/stock_monitor.py line 411):
descending absolute change percentage. -/
def byAbsDesc (a b : IntradayRecord) : Prop :=
  |b.change_pct| ≤ |a.change_pct|

instance : DecidableRel byAbsDesc :=
  fun _ _ => inferInstanceAs (Decidable (_ ≤ _))

instance : IsTotal IntradayRecord byAbsDesc :=
  ⟨fun _ _ => le_total _ _⟩

instance : IsTrans IntradayRecord byAbsDesc :=
  ⟨fun _ _ _ h1 h2 => le_trans h2 h1⟩

/-- The `triggered` list of `run_intraday` (src/stock_monitor.py lines
407-412): filter the fetched records by the price-move rule and the
daily dedup set, then sort by absolute change percentage descending. -/
def intradayTriggered (stocks : List IntradayRecord) (alerted : List String)
    (th : ℚ) : List IntradayRecord :=
  List.insertionSort byAbsDesc
    (stocks.filter (fun s => priceMoveFires th s && decide (s.symbol ∉ alerted)))

/-- The outbound messages of one intraday market pass (src/stock_monitor.py
lines 413-446): none when nothing triggered, otherwise exactly one
aggregate message, abstracted to the ordered list of records whose alert
lines it contains. -/
def intradayMessages (stocks : List IntradayRecord) (alerted : List String)
    (th : ℚ) : List (List IntradayRecord) :=
  let t := intradayTriggered stocks alerted th
  if t.isEmpty then [] else [t]

/-- The records of `run_close_check` that contribute an alert block
(src/stock_monitor.py lines 604-616), in the order of the fetched
records list. -/
def closeTriggered (stocks : List CloseRecord) : List CloseRecord :=
  stocks.filter (fun s => !(checkCloseAlerts s).isEmpty)

/-- The outbound messages of `run_close_check` (src/stock_monitor.py
lines 618-631): none when nothing triggered, otherwise exactly one
aggregate message, abstracted to the ordered list of records whose
blocks it contains. -/
def closeMessages (stocks : List CloseRecord) : List (List CloseRecord) :=
  let t := closeTriggered stocks
  if t.isEmpty then [] else [t]

/-- The `as_completed` collection loop of the close-mode fetchers
(src/stock_monitor.py lines 482-489): one future per symbol, results
appended in completion order and failed symbols dropped.
`completionOrder` is the order in which the futures complete — some
permutation of the submitted symbol list. -/
def getCloseData (fetch : String → Option CloseRecord)
    (completionOrder : List String) : List CloseRecord :=
  completionOrder.filterMap fetch

/-! Concrete inputs used to evaluate the model on explicit runs. -/

def mUS : String := "美股"

def symS : String := "GOOG"

def symX : String := "NVDA"

def symY : String := "TSLA"

def symA : String := "AAPL"

def symB : String := "BIDU"

def symC3 : String := "META"

def symC4 : String := "UBER"

def dayPrev : String := "2026-10-11"

def dayD : String := "2026-10-12"

/-- A 5-bar history whose 4 trailing bars all have volume 0, so the
trailing average volume is 0. -/
def c1Hist : List Bar :=
  [⟨10, 0⟩, ⟨10, 0⟩, ⟨10, 0⟩, ⟨10, 0⟩, ⟨20, 500⟩]

/-- A 5-bar triggering history: last close above the trailing window
high. -/
def c2Hist : List Bar :=
  [⟨10, 100⟩, ⟨10, 100⟩, ⟨10, 100⟩, ⟨10, 100⟩, ⟨20, 100⟩]

/-- Close-mode fetch function of a run whose only symbol is `symX`. -/
def c2Fetch (s : String) : Option CloseRecord :=
  if s = symX then fetchClose symX mUS c2Hist else none

/-- A 6-bar history: far fewer bars than the 30-session window, yet
above the 5-bar floor; the last bar is both a price and a volume
outlier. -/
def c3Hist : List Bar :=
  [⟨10, 100⟩, ⟨10, 100⟩, ⟨10, 100⟩, ⟨10, 100⟩, ⟨10, 100⟩, ⟨20, 1000⟩]

/-- The degenerate-window record of the spec example: windowHigh 50,
windowLow 30, price 50. -/
def c4Rec : CloseRecord :=
  { symbol := symC4, name := symC4, price := 50, volume := 0, avg_vol_30 := 0,
    vol_ratio := 0, max_30d := 50, min_30d := 30, market := mUS }

/-- A 5-bar history with zero trailing volumes and a huge current
volume. -/
def c6Hist : List Bar :=
  [⟨10, 0⟩, ⟨10, 0⟩, ⟨10, 0⟩, ⟨10, 0⟩, ⟨30, 1000000⟩]

def c9HistA : List Bar :=
  [⟨10, 100⟩, ⟨10, 100⟩, ⟨10, 100⟩, ⟨10, 100⟩, ⟨20, 100⟩]

def c9HistB : List Bar :=
  [⟨40, 100⟩, ⟨40, 100⟩, ⟨40, 100⟩, ⟨40, 100⟩, ⟨80, 100⟩]

/-- The symbol list submitted to the close-mode worker pool. -/
def c9Symbols : List String := [symA, symB]

/-- A completion order of that pool in which the future of `symB`
finishes first. -/
def c9Completion : List String := [symB, symA]

/-- Close-mode fetch function of the two-symbol run. -/
def c9Fetch (s : String) : Option CloseRecord :=
  if s = symA then fetchClose symA mUS c9HistA
  else if s = symB then fetchClose symB mUS c9HistB
  else none

/-- Intraday records of two symbols, both beyond the threshold. -/
def wRecX : IntradayRecord :=
  { symbol := symX, name := symX, price := 110, prev_close := 100,
    change_pct := 10, vol_ratio := none, market := mUS }

def wRecY : IntradayRecord :=
  { symbol := symY, name := symY, price := 93, prev_close := 100,
    change_pct := -7, vol_ratio := none, market := mUS }

/-! General lemmas about the embedded operations, shared by the claim
theorems. -/

theorem roundHalfEven_nonneg {q : ℚ} (hq : 0 ≤ q) : 0 ≤ roundHalfEven q := by
  have hnum : 0 ≤ q.num := Rat.num_nonneg.mpr hq
  have hf : 0 ≤ q.num.fdiv q.den :=
    Int.fdiv_nonneg hnum (Int.ofNat_nonneg _)
  unfold roundHalfEven
  dsimp only
  split_ifs <;> omega

theorem round2_nonneg {q : ℚ} (hq : 0 ≤ q) : 0 ≤ round2 q := by
  have h : (0 : ℤ) ≤ roundHalfEven (q * 100) :=
    roundHalfEven_nonneg (by positivity)
  have h2 : (0 : ℚ) ≤ (roundHalfEven (q * 100) : ℚ) := by exact_mod_cast h
  unfold round2
  positivity

theorem round2_zero : round2 0 = 0 := by
  norm_num [round2, roundHalfEven]

theorem meanVol_nonneg (l : List Bar) : 0 ≤ meanVol l := by
  unfold meanVol
  apply div_nonneg _ (Nat.cast_nonneg _)
  apply List.sum_nonneg
  intro x hx
  obtain ⟨b, _, rfl⟩ := List.mem_map.mp hx
  exact Nat.cast_nonneg _

theorem mkCloseRecord_vol_ratio (s m : String) (last : Bar) (h30 : List Bar) :
    (mkCloseRecord s m last h30).vol_ratio =
      round2 (if 0 < meanVol h30 then (last.volume : ℚ) / meanVol h30 else 0) := rfl

theorem mkCloseRecord_vol_ratio_nonneg (s m : String) (last : Bar) (h30 : List Bar) :
    0 ≤ (mkCloseRecord s m last h30).vol_ratio := by
  rw [mkCloseRecord_vol_ratio]
  apply round2_nonneg
  split_ifs with h
  · exact div_nonneg (Nat.cast_nonneg _) (le_of_lt h)
  · exact le_refl 0

theorem fetchClose_eq_some {s m : String} {hist : List Bar} {r : CloseRecord}
    (h : fetchClose s m hist = some r) :
    5 ≤ hist.length ∧ ∃ last, hist.getLast? = some last ∧
      r = mkCloseRecord s m last (hist30 hist) := by
  unfold fetchClose at h
  by_cases hlen : hist.length < 5
  · simp [hlen] at h
  · refine ⟨le_of_not_lt hlen, ?_⟩
    cases hl : hist.getLast? with
    | none => simp [hlen, hl] at h
    | some last =>
      rw [if_neg hlen, hl] at h
      exact ⟨last, rfl, (Option.some_inj.mp h).symm⟩

theorem volumeSpike_mem_iff (r : CloseRecord) :
    CloseCondition.volumeSpike ∈ checkCloseAlerts r ↔
      VOLUME_MULTIPLIER ≤ r.vol_ratio := by
  unfold checkCloseAlerts
  split_ifs <;> simp_all

theorem newHigh_mem_iff (r : CloseRecord) :
    CloseCondition.newHigh ∈ checkCloseAlerts r ↔ r.max_30d ≤ r.price := by
  unfold checkCloseAlerts
  split_ifs <;> simp_all

theorem newLow_mem_iff (r : CloseRecord) :
    CloseCondition.newLow ∈ checkCloseAlerts r ↔
      ¬r.max_30d ≤ r.price ∧ r.price ≤ r.min_30d := by
  unfold checkCloseAlerts
  split_ifs <;> simp_all

theorem mem_intradayTriggered {stocks : List IntradayRecord}
    {alerted : List String} {th : ℚ} {s : IntradayRecord} :
    s ∈ intradayTriggered stocks alerted th ↔
      s ∈ stocks ∧ priceMoveFires th s = true ∧ s.symbol ∉ alerted := by
  unfold intradayTriggered
  rw [(List.perm_insertionSort byAbsDesc _).mem_iff, List.mem_filter]
  simp [and_assoc]

theorem mem_load_save {prev : Option SavedDedup} {today x : String}
    {newSymbols : List String} (hx : x ∈ newSymbols) :
    x ∈ loadAlertedToday (some (saveAlertedToday prev newSymbols today)) today := by
  simp only [loadAlertedToday, saveAlertedToday, if_pos rfl, Option.getD_some]
  exact List.mem_union_iff.mpr (Or.inr hx)

theorem fetchIntraday_eq_some {sym : String} {c p v a : Option ℚ}
    {r : IntradayRecord} (h : fetchIntraday sym c p v a = some r) :
    ∃ cv pv, c = some cv ∧ p = some pv ∧ cv ≠ 0 ∧ pv ≠ 0 ∧
      r = mkIntradayRecord sym cv pv v a := by
  cases c with
  | none => simp [fetchIntraday, falsy] at h
  | some cv =>
    cases p with
    | none => simp [fetchIntraday, falsy] at h
    | some pv =>
      by_cases hcv : cv = 0
      · subst hcv
        simp [fetchIntraday, falsy] at h
      · by_cases hpv : pv = 0
        · subst hpv
          simp [fetchIntraday, falsy] at h
        · refine ⟨cv, pv, rfl, rfl, hcv, hpv, ?_⟩
          simp [fetchIntraday, falsy, hcv, hpv] at h
          exact h.symm

theorem volRatioIntraday_nonneg {v a : Option ℚ}
    (hv : ∀ x, v = some x → 0 ≤ x) (ha : ∀ x, a = some x → 0 ≤ x) :
    volRatioIntraday v a = none ∨
      ∃ q, volRatioIntraday v a = some q ∧ 0 ≤ q := by
  unfold volRatioIntraday
  by_cases hg : (falsy v || falsy a) = true
  · rw [if_pos hg]
    exact Or.inl rfl
  · rw [if_neg hg]
    cases v with
    | none => simp [falsy] at hg
    | some vv =>
      cases a with
      | none => simp [falsy] at hg
      | some av =>
        refine Or.inr ⟨round2 (vv / av), rfl, ?_⟩
        exact round2_nonneg (div_nonneg (hv vv rfl) (ha av rfl))

/-- Claim C4: the New Extreme rule fires as a new high iff
`price ≥ windowHigh` (boundary inclusive), otherwise as a new low iff
`price ≤ windowLow`; the high check is evaluated first, so at most one
extreme condition is produced, and the degenerate record with
windowHigh 50, windowLow 30, price 50 yields exactly the new-high
condition. -/
theorem c4_new_extreme_rule (r : CloseRecord) :
    (CloseCondition.newHigh ∈ checkCloseAlerts r ↔ r.max_30d ≤ r.price) ∧
    (CloseCondition.newHigh ∉ checkCloseAlerts r →
      (CloseCondition.newLow ∈ checkCloseAlerts r ↔ r.price ≤ r.min_30d)) ∧
    ¬(CloseCondition.newHigh ∈ checkCloseAlerts r ∧
      CloseCondition.newLow ∈ checkCloseAlerts r) ∧
    checkCloseAlerts c4Rec = [CloseCondition.newHigh] := by
  refine ⟨newHigh_mem_iff r, ?_, ?_, ?_⟩
  · intro hnot
    rw [newHigh_mem_iff] at hnot
    rw [newLow_mem_iff]
    exact ⟨fun h => h.2, fun h => ⟨hnot, h⟩⟩
  · rintro ⟨hh, hl⟩
    rw [newHigh_mem_iff] at hh
    rw [newLow_mem_iff] at hl
    exact hl.1 hh
  · norm_num [checkCloseAlerts, c4Rec, VOLUME_MULTIPLIER]

/-- Witness for C4 at a concrete record below its window low. -/
theorem c4_new_extreme_rule_witness :
    CloseCondition.newLow ∈ checkCloseAlerts { c4Rec with price := 20 } := by
  have h := (c4_new_extreme_rule { c4Rec with price := 20 }).2.1
  have hnot : CloseCondition.newHigh ∉ checkCloseAlerts { c4Rec with price := 20 } := by
    rw [newHigh_mem_iff]
    norm_num [c4Rec]
  exact (h hnot).mpr (by norm_num [c4Rec])

/-- Claim C6: a close-mode record whose trailing average volume is zero
never fires the Volume Spike condition, whatever the current raw
volume. -/
theorem c6_no_spike_on_zero_avg (sym m : String) (hist : List Bar) (r : CloseRecord)
    (hf : fetchClose sym m hist = some r) (havg : meanVol (hist30 hist) = 0) :
    CloseCondition.volumeSpike ∉ checkCloseAlerts r := by
  obtain ⟨-, last, -, rfl⟩ := fetchClose_eq_some hf
  rw [volumeSpike_mem_iff, mkCloseRecord_vol_ratio, havg]
  rw [if_neg (lt_irrefl 0), round2_zero]
  norm_num [VOLUME_MULTIPLIER]

/-- Witness for C6: a five-bar history with zero trailing volumes and a
huge current volume. -/
theorem c6_no_spike_on_zero_avg_witness :
    CloseCondition.volumeSpike ∉
      checkCloseAlerts (mkCloseRecord symX mUS ⟨30, 1000000⟩ (hist30 c6Hist)) := by
  apply c6_no_spike_on_zero_avg symX mUS c6Hist
  · rfl
  · have h30 : hist30 c6Hist = [⟨10, 0⟩, ⟨10, 0⟩, ⟨10, 0⟩, ⟨10, 0⟩] := rfl
    rw [h30]
    norm_num [meanVol]

/-- Claim C7: the dedup store load returns the stored set only when the
stored date equals the current date; a missing/unreadable/malformed
file or a stale date loads as empty. -/
theorem c7_dedup_load (content : Option SavedDedup) (today : String) :
    (content = none → loadAlertedToday content today = []) ∧
    (∀ d, content = some d → d.date ≠ some today →
      loadAlertedToday content today = []) ∧
    (∀ d, content = some d → d.date = some today →
      loadAlertedToday content today = d.symbols.getD []) := by
  refine ⟨?_, ?_, ?_⟩
  · rintro rfl
    rfl
  · rintro d rfl hne
    simp [loadAlertedToday, hne]
  · rintro d rfl heq
    simp [loadAlertedToday, heq]

/-- Witness for C7: a store written yesterday loads as empty today. -/
theorem c7_dedup_load_witness :
    loadAlertedToday (some { date := some dayPrev, symbols := some [symA] }) dayD
      = [] := by
  refine (c7_dedup_load _ _).2.1 _ rfl ?_
  decide

/-- Claim C8: each single-market run produces exactly one aggregate
message when at least one symbol triggered, and none otherwise, in both
the close-check and intraday modes. -/
theorem c8_one_message_per_run (stocks : List CloseRecord)
    (istocks : List IntradayRecord) (alerted : List String) (th : ℚ) :
    (closeMessages stocks).length =
      (if (closeTriggered stocks).length = 0 then 0 else 1) ∧
    (intradayMessages istocks alerted th).length =
      (if (intradayTriggered istocks alerted th).length = 0 then 0 else 1) := by
  constructor
  · cases hcl : closeTriggered stocks with
    | nil => simp [closeMessages, hcl]
    | cons a t => simp [closeMessages, hcl]
  · cases hit : intradayTriggered istocks alerted th with
    | nil => simp [intradayMessages, hit]
    | cons a t => simp [intradayMessages, hit]

/-- Claim C9, amended: the intraday summary lists triggered records in
descending order of absolute change percentage; the close-of-day
summary lists them in the order of the collected records list (which is
the worker-pool completion order, not necessarily the submitted symbol
order — see the counterexample). -/
theorem c9_amended_ordering (istocks : List IntradayRecord) (alerted : List String)
    (th : ℚ) (stocks : List CloseRecord) :
    (intradayTriggered istocks alerted th).Sorted byAbsDesc ∧
    (closeTriggered stocks).Sublist stocks :=
  ⟨List.sorted_insertionSort byAbsDesc _, List.filter_sublist _⟩

/-- Counterexample to claim C9 as stated: in a close-mode run over the
symbol list `[symA, symB]`, when the worker of `symB` completes first
the aggregate message lists the triggered symbols as `[symB, symA]` —
the collection order of `as_completed` — and not the original fetch
order of the symbol list. -/
theorem c9_counterexample :
    c9Completion.Perm c9Symbols ∧
    (closeMessages (getCloseData c9Fetch c9Completion)).map
        (fun m => m.map CloseRecord.symbol) = [[symB, symA]] ∧
    [symB, symA] ≠ [symA, symB] := by
  refine ⟨by decide, ?_, by decide⟩
  have e1 : getCloseData c9Fetch c9Completion
      = [mkCloseRecord symB mUS ⟨80, 100⟩ (hist30 c9HistB),
         mkCloseRecord symA mUS ⟨20, 100⟩ (hist30 c9HistA)] := rfl
  have h30B : hist30 c9HistB = [⟨40, 100⟩, ⟨40, 100⟩, ⟨40, 100⟩, ⟨40, 100⟩] := rfl
  have h30A : hist30 c9HistA = [⟨10, 100⟩, ⟨10, 100⟩, ⟨10, 100⟩, ⟨10, 100⟩] := rfl
  have hBrec : mkCloseRecord symB mUS ⟨80, 100⟩ (hist30 c9HistB)
      = ⟨symB, symB, 80, 100, 100, 1, 40, 40, mUS⟩ := by
    rw [h30B]
    norm_num [mkCloseRecord, meanVol, listMax, listMin, round3, round2,
      pyInt, roundHalfEven, CloseRecord.mk.injEq]
  have hArec : mkCloseRecord symA mUS ⟨20, 100⟩ (hist30 c9HistA)
      = ⟨symA, symA, 20, 100, 100, 1, 10, 10, mUS⟩ := by
    rw [h30A]
    norm_num [mkCloseRecord, meanVol, listMax, listMin, round3, round2,
      pyInt, roundHalfEven, CloseRecord.mk.injEq]
  have hcb : checkCloseAlerts (⟨symB, symB, 80, 100, 100, 1, 40, 40, mUS⟩ : CloseRecord)
      = [CloseCondition.newHigh] := by
    norm_num [checkCloseAlerts, VOLUME_MULTIPLIER]
  have hca : checkCloseAlerts (⟨symA, symA, 20, 100, 100, 1, 10, 10, mUS⟩ : CloseRecord)
      = [CloseCondition.newHigh] := by
    norm_num [checkCloseAlerts, VOLUME_MULTIPLIER]
  rw [e1, hBrec, hArec]
  simp [closeMessages, closeTriggered, hcb, hca]

/-- Counterexample to claim C1 as stated: a close-mode fetch over a
history whose trailing window volumes are all zero materialises the
volume ratio as the number 0 instead of propagating it as undefined. -/
theorem c1_counterexample :
    meanVol (hist30 c1Hist) = 0 ∧
    ∃ r, fetchClose symX mUS c1Hist = some r ∧ r.vol_ratio = 0 := by
  have h30 : hist30 c1Hist = [⟨10, 0⟩, ⟨10, 0⟩, ⟨10, 0⟩, ⟨10, 0⟩] := rfl
  have havg : meanVol (hist30 c1Hist) = 0 := by
    rw [h30]
    norm_num [meanVol]
  refine ⟨havg, mkCloseRecord symX mUS ⟨20, 500⟩ (hist30 c1Hist), rfl, ?_⟩
  rw [mkCloseRecord_vol_ratio, havg, if_neg (lt_irrefl 0), round2_zero]

/-- Claim C1, amended: the intraday fetch leaves the volume ratio
undefined (`None`) when the volume or the trailing average is missing
or zero, and any defined ratio of nonnegative inputs is nonnegative;
the close-mode fetch instead materialises the ratio as the number 0
when the trailing average volume is zero (the Volume Spike rule still
cannot fire on it — claim C6), and its ratio is always nonnegative. -/
theorem c1_amended_volume_ratio :
    (∀ sym c p v a r, fetchIntraday sym c p v a = some r →
      (falsy v || falsy a) = true → r.vol_ratio = none) ∧
    (∀ sym c p v a r, fetchIntraday sym c p v a = some r →
      (∀ x, v = some x → 0 ≤ x) → (∀ x, a = some x → 0 ≤ x) →
      r.vol_ratio = none ∨ ∃ q, r.vol_ratio = some q ∧ 0 ≤ q) ∧
    (∀ sym m hist r, fetchClose sym m hist = some r →
      0 ≤ r.vol_ratio ∧ (meanVol (hist30 hist) = 0 → r.vol_ratio = 0)) := by
  refine ⟨?_, ?_, ?_⟩
  · intro sym c p v a r h hg
    obtain ⟨cv, pv, -, -, -, -, rfl⟩ := fetchIntraday_eq_some h
    show volRatioIntraday v a = none
    unfold volRatioIntraday
    rw [if_pos hg]
  · intro sym c p v a r h hv ha
    obtain ⟨cv, pv, -, -, -, -, rfl⟩ := fetchIntraday_eq_some h
    exact volRatioIntraday_nonneg hv ha
  · intro sym m hist r h
    obtain ⟨-, last, -, rfl⟩ := fetchClose_eq_some h
    refine ⟨mkCloseRecord_vol_ratio_nonneg _ _ _ _, ?_⟩
    intro havg
    rw [mkCloseRecord_vol_ratio, havg, if_neg (lt_irrefl 0), round2_zero]

/-- Witness for the amended C1: an intraday record fetched with a
missing volume carries an undefined ratio. -/
theorem c1_amended_volume_ratio_witness :
    ∃ r, fetchIntraday symS (some 112) (some 100) none (some 5) = some r ∧
      r.vol_ratio = none := by
  have h : fetchIntraday symS (some 112) (some 100) none (some 5)
      = some (mkIntradayRecord symS 112 100 none (some 5)) := by
    simp only [fetchIntraday, falsy]
    norm_num
  refine ⟨mkIntradayRecord symS 112 100 none (some 5), h, ?_⟩
  exact c1_amended_volume_ratio.1 symS (some 112) (some 100) none (some 5) _ h rfl

/-- Counterexample to claim C3 as stated: a six-bar history (far fewer
bars than the 30-session window) still produces a record, and the
evaluator runs — rather than skips — the window-dependent New Extreme
and Volume Spike rules on it: no insufficient-history flag exists. -/
theorem c3_counterexample :
    c3Hist.length < 31 ∧
    ∃ r, fetchClose symC3 mUS c3Hist = some r ∧
      CloseCondition.newHigh ∈ checkCloseAlerts r ∧
      CloseCondition.volumeSpike ∈ checkCloseAlerts r := by
  have h30 : hist30 c3Hist
      = [⟨10, 100⟩, ⟨10, 100⟩, ⟨10, 100⟩, ⟨10, 100⟩, ⟨10, 100⟩] := rfl
  refine ⟨by decide, mkCloseRecord symC3 mUS ⟨20, 1000⟩ (hist30 c3Hist), rfl, ?_, ?_⟩
  · rw [newHigh_mem_iff, h30]
    norm_num [mkCloseRecord, listMax, round3, roundHalfEven]
  · rw [volumeSpike_mem_iff, mkCloseRecord_vol_ratio, h30]
    norm_num [meanVol, round2, roundHalfEven, VOLUME_MULTIPLIER]

/-- Claim C3, amended: a history below the 5-bar floor is discarded;
any history at or above the floor produces a record whose statistics
window is all available trailing bars (`dropLast` when the history is
shorter than window + 1 = 31 bars); no insufficient-history flag exists
and the evaluator runs every rule on such records (counterexample
`c3_counterexample`). -/
theorem c3_amended_short_history (sym m : String) (hist : List Bar) :
    (hist.length < 5 → fetchClose sym m hist = none) ∧
    (5 ≤ hist.length → ∃ last, hist.getLast? = some last ∧
      fetchClose sym m hist = some (mkCloseRecord sym m last (hist30 hist))) ∧
    (hist.length ≤ 31 → hist30 hist = hist.dropLast) := by
  refine ⟨?_, ?_, ?_⟩
  · intro h
    unfold fetchClose
    rw [if_pos h]
  · intro h
    have hne : hist ≠ [] := by
      intro he
      rw [he] at h
      simp at h
    cases hl : hist.getLast? with
    | none => exact absurd (List.getLast?_eq_none_iff.mp hl) hne
    | some last =>
      refine ⟨last, rfl, ?_⟩
      unfold fetchClose
      rw [if_neg (not_lt.mpr h), hl]
  · intro h
    unfold hist30
    rw [Nat.sub_eq_zero_of_le h, List.drop_zero, ← List.dropLast_eq_take]

/-- Witness for the amended C3 at the six-bar history. -/
theorem c3_amended_short_history_witness :
    hist30 c3Hist = c3Hist.dropLast ∧
    ∃ last, c3Hist.getLast? = some last ∧
      fetchClose symC3 mUS c3Hist = some (mkCloseRecord symC3 mUS last (hist30 c3Hist)) := by
  have h := c3_amended_short_history symC3 mUS c3Hist
  exact ⟨h.2.2 (by decide), h.2.1 (by decide)⟩

/-- Claim C5: the Price Move rule fires iff
`|changePct| ≥ threshold`, where `changePct` is
`(price − previousClose) / previousClose · 100` rounded to two
decimals; the direction marker follows the sign of `changePct`; and on
the spec example (price 112, previous close 100) the change is +12.00,
the rule fires at threshold 7, and the alert cell formats it as
`+12.00%`. -/
theorem c5_price_move_rule (c p th : ℚ) (hc : c ≠ 0) (hp : p ≠ 0) :
    (∃ r, fetchIntraday symS (some c) (some p) none none = some r ∧
      r.change_pct = round2 ((c - p) / p * 100) ∧
      (priceMoveFires th r = true ↔ th ≤ |r.change_pct|) ∧
      (0 < r.change_pct → intradayEmoji r = "📈") ∧
      (r.change_pct < 0 → intradayEmoji r = "📉")) ∧
    (∃ re, fetchIntraday symS (some 112) (some 100) none none = some re ∧
      re.change_pct = 12 ∧ priceMoveFires 7 re = true ∧
      fmtPlus2 re.change_pct ++ "%" = "+12.00%" ∧ intradayEmoji re = "📈") := by
  constructor
  · refine ⟨mkIntradayRecord symS c p none none, ?_, rfl, ?_, ?_, ?_⟩
    · simp [fetchIntraday, falsy, hc, hp]
    · exact decide_eq_true_iff
    · intro h
      unfold intradayEmoji
      rw [if_pos h]
    · intro h
      unfold intradayEmoji
      rw [if_neg (not_lt.mpr (le_of_lt h))]
  · have hfe : fetchIntraday symS (some 112) (some 100) none none
        = some (mkIntradayRecord symS 112 100 none none) := by
      simp only [fetchIntraday, falsy]
      norm_num
    have hcp : (mkIntradayRecord symS 112 100 none none).change_pct = 12 := by
      show round2 ((112 - 100) / 100 * 100) = 12
      norm_num [round2, roundHalfEven]
    refine ⟨mkIntradayRecord symS 112 100 none none, hfe, hcp, ?_, ?_, ?_⟩
    · rw [priceMoveFires, hcp, decide_eq_true_iff]
      norm_num
    · rw [hcp]
      have hb : roundHalfEven ((12 : ℚ) * 100) = 1200 := by
        norm_num [roundHalfEven]
      simp only [fmtPlus2, hb]
      decide
    · rw [intradayEmoji, hcp]
      norm_num

/-- Witness for C5 at the spec example, threshold 7. -/
theorem c5_price_move_rule_witness :
    ∃ r, fetchIntraday symS (some 112) (some 100) none none = some r ∧
      r.change_pct = round2 ((112 - 100) / 100 * 100) := by
  obtain ⟨⟨r, h1, h2, -⟩, -⟩ := c5_price_move_rule 112 100 7 (by norm_num) (by norm_num)
  exact ⟨r, h1, h2⟩

/-- Counterexample to the last clause of claim C10 as stated: a live
price of 112 against a previous close of 1/2500 = 0.0004 passes every
guard (the denominator is nonzero), yet the produced record stores
`prev_close` rounded to three decimals, which is the number 0. -/
theorem c10_counterexample :
    ∃ r, fetchIntraday symS (some 112) (some (1 / 2500)) none none = some r ∧
      r.prev_close = 0 := by
  have hfe : fetchIntraday symS (some 112) (some (1 / 2500)) none none
      = some (mkIntradayRecord symS 112 (1 / 2500) none none) := by
    simp only [fetchIntraday, falsy]
    norm_num
  refine ⟨mkIntradayRecord symS 112 (1 / 2500) none none, hfe, ?_⟩
  show round3 (1 / 2500) = 0
  have hfd : Int.fdiv 2 5 = 0 := by decide
  norm_num [round3, roundHalfEven, hfd]

/-- Claim C10, amended: the intraday fetch drops the symbol whenever
the live price or previous close is missing or the previous close is
zero, so the change-percentage division always has a nonzero
denominator; but the `prev_close` field a record carries is the
three-decimal rounding of that denominator and can itself be 0 (for
0 < previousClose < 1/2000 — counterexample `c10_counterexample`). -/
theorem c10_amended_intraday_guard (sym : String) (current prev vol avg : Option ℚ) :
    ((current = none ∨ prev = none ∨ prev = some 0) →
      fetchIntraday sym current prev vol avg = none) ∧
    (∀ r, fetchIntraday sym current prev vol avg = some r →
      ∃ c p, current = some c ∧ prev = some p ∧ p ≠ 0 ∧
        r.change_pct = round2 ((c - p) / p * 100) ∧ r.prev_close = round3 p) := by
  constructor
  · rintro (rfl | rfl | rfl) <;> simp [fetchIntraday, falsy]
  · intro r h
    obtain ⟨c, p, hc, hp, -, hpv, rfl⟩ := fetchIntraday_eq_some h
    exact ⟨c, p, hc, hp, hpv, rfl, rfl⟩

/-- Witness for the amended C10: a missing previous close yields no
record. -/
theorem c10_amended_intraday_guard_witness :
    fetchIntraday symS (some 112) none none none = none :=
  (c10_amended_intraday_guard symS (some 112) none none none).1
    (Or.inr (Or.inl rfl))

/-- Counterexample to claim C2 as stated ("in every alerting run
mode"): `run_close_check` never consults the daily dedup store, so a
symbol recorded as already alerted today is still included in the
close-mode aggregate message when it re-triggers. -/
theorem c2_counterexample :
    symX ∈ loadAlertedToday (some (saveAlertedToday none [symX] dayD)) dayD ∧
    (closeMessages (getCloseData c2Fetch [symX])).map
      (fun m => m.map CloseRecord.symbol) = [[symX]] := by
  constructor
  · exact mem_load_save (List.mem_singleton.mpr rfl)
  · have e1 : getCloseData c2Fetch [symX]
        = [mkCloseRecord symX mUS ⟨20, 100⟩ (hist30 c2Hist)] := rfl
    have h30 : hist30 c2Hist = [⟨10, 100⟩, ⟨10, 100⟩, ⟨10, 100⟩, ⟨10, 100⟩] := rfl
    have hrec : mkCloseRecord symX mUS ⟨20, 100⟩ (hist30 c2Hist)
        = ⟨symX, symX, 20, 100, 100, 1, 10, 10, mUS⟩ := by
      rw [h30]
      norm_num [mkCloseRecord, meanVol, listMax, listMin, round3, round2,
        pyInt, roundHalfEven, CloseRecord.mk.injEq]
    have hck : checkCloseAlerts (⟨symX, symX, 20, 100, 100, 1, 10, 10, mUS⟩ : CloseRecord)
        = [CloseCondition.newHigh] := by
      norm_num [checkCloseAlerts, VOLUME_MULTIPLIER]
    rw [e1, hrec]
    simp [closeMessages, closeTriggered, hck]

/-- Claim C2, amended: alert dedup within one calendar date holds for
the intraday mode — the only mode that consults the store: any symbol
saved by a first intraday invocation is filtered out of the triggered
list of a second invocation that loads the store on the same date.
The close-check mode sends without consulting the store
(counterexample `c2_counterexample`). -/
theorem c2_amended_intraday_dedup
    (prev : Option SavedDedup) (today : String)
    (stocks1 stocks2 : List IntradayRecord) (th : ℚ) (s : IntradayRecord)
    (hs : s ∈ intradayTriggered stocks2
      (loadAlertedToday (some (saveAlertedToday prev
        ((intradayTriggered stocks1 (loadAlertedToday prev today) th).map
          IntradayRecord.symbol) today)) today) th) :
    s.symbol ∉ (intradayTriggered stocks1 (loadAlertedToday prev today) th).map
      IntradayRecord.symbol := by
  intro hin
  exact (mem_intradayTriggered.mp hs).2.2 (mem_load_save hin)

/-- Witness for the amended C2: a first invocation alerts `wRecX`; a
second invocation on the same date triggers `wRecY`, whose symbol is
indeed not among the saved ones. -/
theorem c2_amended_intraday_dedup_witness :
    wRecY.symbol ∉ (intradayTriggered [wRecX] (loadAlertedToday none dayD) 5).map
      IntradayRecord.symbol := by
  have hload : loadAlertedToday none dayD = [] := rfl
  have hfX : priceMoveFires 5 wRecX = true := by
    simp only [priceMoveFires, wRecX, decide_eq_true_eq]
    norm_num
  have hfY : priceMoveFires 5 wRecY = true := by
    simp only [priceMoveFires, wRecY, decide_eq_true_eq]
    norm_num
  have t1 : intradayTriggered [wRecX] [] 5 = [wRecX] := by
    unfold intradayTriggered
    simp [hfX, List.insertionSort]
  apply c2_amended_intraday_dedup none dayD [wRecX] [wRecY] 5 wRecY
  rw [mem_intradayTriggered]
  refine ⟨List.mem_singleton.mpr rfl, hfY, ?_⟩
  rw [hload, t1]
  have hmap : ([wRecX].map IntradayRecord.symbol) = [symX] := rfl
  rw [hmap]
  have hsave : loadAlertedToday (some (saveAlertedToday none [symX] dayD)) dayD
      = [symX] := rfl
  rw [hsave]
  decide
